import Mathlib

/-!
Shallow embedding of `src/multimodal_rag.py` (class `RAGSystem`): the
`index_documents` and `answer_question` operations, the document image cache
`_get_document_images`, and the path helpers from `os.path` that the code
relies on.  External collaborators (the byaldi retrieval model, the
pdf2image rasterizer, the Qwen2-VL processor/model) are modelled as an
abstract environment of functions; filesystem effects (the staging folder
for file-list indexing) and collaborator invocations are made explicit in
the returned state and trace.
-/

namespace ColpaliRag

/-- Errors raised by the orchestrator, mirroring the exception sites of
`multimodal_rag.py`: the missing-source `ValueError` (line 103), the
`FileNotFoundError` for a listed file (line 133), the not-indexed
`ValueError` (line 194), the unknown-document `ValueError` (line 168), an
unstructured failure propagating out of a collaborator call, and the
Python `IndexError` / `TypeError` runtime slips. -/
inductive RagError where
  | invalidArgument
  | fileNotFound (path : String)
  | notIndexed
  | documentNotFound (docId : Int)
  | collaboratorFailure
  | indexError
  | typeError
  deriving DecidableEq, Repr

/-- Splitting a character list on a separator character, with Python
`str.split(sep)` semantics (empty pieces are kept). -/
def splitChars (sep : Char) : List Char → List (List Char)
  | [] => [[]]
  | c :: rest =>
    let r := splitChars sep rest
    if c = sep then [] :: r
    else
      match r with
      | [] => [[c]]
      | h :: t => (c :: h) :: t

/-- Boolean `startswith` on strings, via the underlying character lists. -/
def strStartsWith (s pre : String) : Bool :=
  pre.toList.isPrefixOf s.toList

/-- Boolean `endswith` on strings, via the underlying character lists. -/
def strEndsWith (s suf : String) : Bool :=
  suf.toList.isSuffixOf s.toList

/-- Embeds `os.path.basename` for POSIX paths: the part after the last slash. -/
def basename (p : String) : String :=
  String.mk ((splitChars '/' p.toList).getLastD [])

/-- The component loop of `posixpath.normpath`: drop empty and `.` components,
resolve `..` against the accumulated prefix where possible. -/
def normpathComps (absolute : Bool) : List (List Char) → List (List Char) → List (List Char)
  | acc, [] => acc
  | acc, c :: rest =>
    if c = [] ∨ c = ['.'] then
      normpathComps absolute acc rest
    else if c ≠ ['.', '.'] ∨ (¬ absolute ∧ acc = []) ∨ (acc ≠ [] ∧ acc.getLastD [] = ['.', '.']) then
      normpathComps absolute (acc ++ [c]) rest
    else if acc ≠ [] then
      normpathComps absolute acc.dropLast rest
    else
      normpathComps absolute acc rest

/-- Embeds `posixpath.normpath`. -/
def normpath (p : String) : String :=
  if p = "" then "."
  else
    let initialSlashes : Nat :=
      if strStartsWith p "/" then
        if strStartsWith p "//" ∧ ¬ strStartsWith p "///" then 2 else 1
      else 0
    let comps := normpathComps (initialSlashes > 0) [] (splitChars '/' p.toList)
    let joined := String.mk (List.replicate initialSlashes '/' ++ List.intercalate ['/'] comps)
    if joined = "" then "." else joined

/-- Embeds `posixpath.join` for two components. -/
def osJoin (a b : String) : String :=
  if strStartsWith b "/" then b
  else if a = "" ∨ strEndsWith a "/" then a ++ b
  else a ++ "/" ++ b

/-- Python truthiness of an optional string: `None` and `""` are falsy. -/
def truthyStr : Option String → Bool
  | none => false
  | some s => s != ""

/-- One entry of the list returned by `retrieval_model.search`: document id,
1-based page number and relevance score (the score is never read by the
orchestrator). -/
structure SearchResult where
  doc_id : Int
  page_num : Int
  score : Int
  deriving DecidableEq, Repr

/-- One content item of the Qwen2-VL chat template: an image or a text part.
Page images are abstracted as natural numbers. -/
inductive ChatItem where
  | image (img : Nat)
  | text (t : String)
  deriving DecidableEq, Repr

/-- One message of the chat template passed to the processor. -/
structure ChatMessage where
  role : String
  content : List ChatItem
  deriving DecidableEq, Repr

/-- The external collaborators of the orchestrator, as abstract functions:
`indexCall` is `retrieval_model.index` (arguments: input path, index name,
store_collection_with_index, overwrite; result: success or failure),
`getDocumentPath` is `retrieval_model.get_document_path` (returning the
source path or none), `convertFromPath` is pdf2image rasterization,
`search` is `retrieval_model.search`, and the remaining four embed the
Qwen2-VL processing pipeline (`apply_chat_template`, `process_vision_info`,
the processor call producing input token id batches, `vlm.generate`, and
`batch_decode`). -/
structure Env where
  indexCall : String → String → Bool → Bool → Bool
  getDocumentPath : Int → Option String
  convertFromPath : String → List Nat
  search : String → Nat → List SearchResult
  applyChatTemplate : List ChatMessage → Bool → Bool → String
  processVisionInfo : List ChatMessage → List Nat
  processInputs : List String → List Nat → List (List Nat)
  generate : List (List Nat) → Nat → Bool → List (List Nat)
  batchDecode : List (List Nat) → Bool → Bool → List String

/-- The filesystem facts the indexing path manipulates: which source paths
exist, which file basenames have been copied into the transient staging
folder (in copy order), and whether the staging folder currently exists. -/
structure FSState where
  files : List String
  staging : List String
  stagingExists : Bool
  deriving DecidableEq, Repr

/-- The mutable orchestrator state of a `RAGSystem` instance: the configured
`index_path`, the document image cache `doc_images` (an association list
standing for the Python dict), and the active `index_name`. -/
structure RagState where
  indexPath : String
  docImages : List (Int × List Nat)
  indexName : Option String
  deriving DecidableEq, Repr

/-- Observable collaborator activity of the answering path: rasterizer
invocations (by source path), warning lines printed for out-of-range pages,
and generator invocations with their arguments (input id batch,
max_new_tokens, do_sample). -/
structure Trace where
  rasterCalls : List String
  warnings : List String
  generateCalls : List (List (List Nat) × Nat × Bool)
  deriving DecidableEq, Repr

def emptyTrace : Trace := ⟨[], [], []⟩

/-- Result of `index_documents`: the raised error (if any), the final
filesystem and orchestrator state, and the indexer invocations made. -/
structure IndexOutcome where
  err : Option RagError
  fs : FSState
  st : RagState
  calls : List (String × String × Bool × Bool)
  deriving DecidableEq, Repr

/-- Result of `_get_document_images`: the returned images or raised error,
plus the cache and trace after the call. -/
structure GetImagesOutcome where
  res : Except RagError (List Nat)
  cache : List (Int × List Nat)
  tr : Trace

/-- Result of the page-resolution loop of `answer_question`. -/
structure ResolveOutcome where
  res : Except RagError (List Nat)
  cache : List (Int × List Nat)
  tr : Trace

/-- Result of `answer_question`: the returned string or raised error, the
orchestrator state after the call, and the collaborator trace. -/
structure AnswerOutcome where
  res : Except RagError String
  st : RagState
  tr : Trace

/-- Lookup in the `doc_images` dict. -/
def lookupCache : List (Int × List Nat) → Int → Option (List Nat)
  | [], _ => none
  | (k, v) :: rest, docId => if k = docId then some v else lookupCache rest docId

/-- Assignment `self.doc_images[doc_id] = images` on the dict. -/
def insertCache : List (Int × List Nat) → Int → List Nat → List (Int × List Nat)
  | [], docId, v => [(docId, v)]
  | (k, w) :: rest, docId, v =>
    if k = docId then (docId, v) :: rest else (k, w) :: insertCache rest docId v

/-- Embeds the copy loop of `index_documents` (lines 131-136): for each
listed path in order, raise `FileNotFoundError` if it does not exist,
otherwise copy it into the staging folder.  On error the copies already
made are retained. -/
def copyFiles : FSState → List String → FSState × Option RagError
  | fs, [] => (fs, none)
  | fs, p :: rest =>
    if p ∈ fs.files then
      copyFiles { fs with staging := fs.staging ++ [basename p] } rest
    else
      (fs, some (RagError.fileNotFound p))

/-- Embeds the index-name derivation of `index_documents` (lines 106-111):
when `index_name` is absent, use the folder basename (after `normpath`) if
`folder_path` is truthy, else `os.path.basename(file_paths[0]).split(chr 46)[0]`
— which raises `IndexError` on an empty list and `TypeError` on `None`. -/
def deriveIndexName (folder_path : Option String) (file_paths : Option (List String))
    (index_name : Option String) : Except RagError String :=
  match index_name with
  | some n => .ok n
  | none =>
    if truthyStr folder_path then
      .ok (basename (normpath (folder_path.getD "")))
    else
      match file_paths with
      | none => .error .typeError
      | some [] => .error .indexError
      | some (f :: _) => .ok (String.mk ((splitChars '.' (basename f).toList).headD []))

/-- Embeds the file-list branch of `index_documents` (lines 124-147):
create the staging folder under `index_path`, copy every listed file into
it (raising `FileNotFoundError` on a missing one), run the indexer on the
staging folder, and — only after a successful indexer call — remove the
staging folder.  Errors propagate without removing the staging folder. -/
def indexFilesBranch (env : Env) (fs : FSState) (st : RagState)
    (file_paths : Option (List String)) (name : String) (overwrite : Bool) : IndexOutcome :=
  let temp := osJoin st.indexPath "temp_index"
  let fs1 := { fs with stagingExists := true }
  match file_paths with
  | none => ⟨some .typeError, fs1, st, []⟩
  | some paths =>
    match copyFiles fs1 paths with
    | (fs2, some e) => ⟨some e, fs2, st, []⟩
    | (fs2, none) =>
      if env.indexCall temp name true overwrite then
        ⟨none, { fs2 with staging := [], stagingExists := false }, st,
          [(temp, name, true, overwrite)]⟩
      else
        ⟨some .collaboratorFailure, fs2, st, [(temp, name, true, overwrite)]⟩

/-- Embeds `RAGSystem.index_documents` (lines 86-149): guard against both
sources being `None`, derive the index name when absent, record it in
`self.index_name`, then either index the folder directly (when
`folder_path` is truthy) or go through the staging-folder branch. -/
def index_documents (env : Env) (fs : FSState) (st : RagState)
    (folder_path : Option String) (file_paths : Option (List String))
    (index_name : Option String) (overwrite : Bool) : IndexOutcome :=
  if folder_path = none ∧ file_paths = none then
    ⟨some .invalidArgument, fs, st, []⟩
  else
    match deriveIndexName folder_path file_paths index_name with
    | .error e => ⟨some e, fs, st, []⟩
    | .ok name =>
      let st1 := { st with indexName := some name }
      if truthyStr folder_path then
        if env.indexCall (folder_path.getD "") name true overwrite then
          ⟨none, fs, st1, [(folder_path.getD "", name, true, overwrite)]⟩
        else
          ⟨some .collaboratorFailure, fs, st1, [(folder_path.getD "", name, true, overwrite)]⟩
      else
        indexFilesBranch env fs st1 file_paths name overwrite

/-- Embeds `RAGSystem._get_document_images` (lines 151-174): return the
cached page list when present; otherwise resolve the source path through
the retriever (raising when it has no record of the id), rasterize all
pages, store the full list under the id and return it. -/
def getDocumentImages (env : Env) (cache : List (Int × List Nat)) (tr : Trace)
    (doc_id : Int) : GetImagesOutcome :=
  match lookupCache cache doc_id with
  | some imgs => ⟨.ok imgs, cache, tr⟩
  | none =>
    match env.getDocumentPath doc_id with
    | none => ⟨.error (.documentNotFound doc_id), cache, tr⟩
    | some path =>
      let images := env.convertFromPath path
      ⟨.ok images, insertCache cache doc_id images,
        { tr with rasterCalls := tr.rasterCalls ++ [path] }⟩

/-- Embeds the retrieval loop of `answer_question` (lines 204-218): for each
search result, fetch the document's images through the cache, keep the page
image when the 0-based index `page_num - 1` is in range, otherwise print a
warning and skip the result. -/
def resolveLoop (env : Env) (cache : List (Int × List Nat)) (tr : Trace)
    (acc : List Nat) : List SearchResult → ResolveOutcome
  | [] => ⟨.ok acc, cache, tr⟩
  | r :: rest =>
    match getDocumentImages env cache tr r.doc_id with
    | ⟨.error e, cache1, tr1⟩ => ⟨.error e, cache1, tr1⟩
    | ⟨.ok docImgs, cache1, tr1⟩ =>
      let imageIndex : Int := r.page_num - 1
      if 0 ≤ imageIndex ∧ imageIndex < (docImgs.length : Int) then
        resolveLoop env cache1 tr1 (acc ++ [docImgs.getD imageIndex.toNat 0]) rest
      else
        resolveLoop env cache1
          { tr1 with warnings := tr1.warnings ++
              ["Warning: Page " ++ toString r.page_num ++ " not found in document "
                ++ toString r.doc_id] }
          acc rest

/-- Embeds the chat template construction of `answer_question` (lines
224-231): one user message holding every retrieved image in rank order,
followed by the question text. -/
def buildChat (images : List Nat) (question : String) : List ChatMessage :=
  [⟨"user", images.map ChatItem.image ++ [ChatItem.text question]⟩]

/-- Embeds the processor stage of `answer_question` (lines 234-247): apply
the chat template (`tokenize=False`, `add_generation_prompt=True`), extract
the vision inputs, and produce the batched input token ids. -/
def buildInputs (env : Env) (chat : List ChatMessage) : List (List Nat) :=
  env.processInputs [env.applyChatTemplate chat false true] (env.processVisionInfo chat)

/-- Embeds the output trimming of `answer_question` (lines 260-263): drop
from each generated sequence the prefix of the corresponding input length. -/
def trimGenerated (inputs genIds : List (List Nat)) : List (List Nat) :=
  (inputs.zip genIds).map fun pr => pr.2.drop pr.1.length

/-- Embeds `RAGSystem.answer_question` (lines 176-271): require an active
index, search, return the no-results sentinel on an empty result list,
resolve page images through the cache (skipping out-of-range pages), return
the no-images sentinel when nothing was resolved, otherwise build the chat
request (all images in rank order, then the question), run the processing
pipeline, generate with `max_new_tokens = max_tokens` and
`do_sample = False`, trim each output sequence by the corresponding input
length and decode with special tokens skipped. -/
def answer_question (env : Env) (st : RagState) (question : String) (top_k : Nat)
    (max_tokens : Nat) : AnswerOutcome :=
  match st.indexName with
  | none => ⟨.error .notIndexed, st, emptyTrace⟩
  | some _ =>
    let results := env.search question top_k
    if results = [] then
      ⟨.ok "No relevant documents found. Please try a different question or index some documents first.",
        st, emptyTrace⟩
    else
      let r := resolveLoop env st.docImages emptyTrace [] results
      let st1 := { st with docImages := r.cache }
      match r.res with
      | .error e => ⟨.error e, st1, r.tr⟩
      | .ok retrieved =>
        if retrieved = [] then
          ⟨.ok "Failed to retrieve document images. Please check your document index.",
            st1, r.tr⟩
        else
          let inputs := buildInputs env (buildChat retrieved question)
          let genIds := env.generate inputs max_tokens false
          let tr1 := { r.tr with generateCalls := r.tr.generateCalls ++ [(inputs, max_tokens, false)] }
          let outputs := env.batchDecode (trimGenerated inputs genIds) true false
          match outputs with
          | [] => ⟨.error .indexError, st1, tr1⟩
          | o :: _ => ⟨.ok o, st1, tr1⟩

/-- A default environment for concrete runs: the indexer succeeds, the
retriever knows no document and returns no search results, and the
generation pipeline is trivial. -/
def env0 : Env where
  indexCall := fun _ _ _ _ => true
  getDocumentPath := fun _ => none
  convertFromPath := fun _ => []
  search := fun _ _ => []
  applyChatTemplate := fun _ _ _ => ""
  processVisionInfo := fun _ => []
  processInputs := fun _ _ => []
  generate := fun _ _ _ => []
  batchDecode := fun _ _ _ => []

def fs0 : FSState := ⟨["a.pdf"], [], false⟩

def st0 : RagState := ⟨"./index", [], none⟩

/-- A run in which the underlying indexer call raises. -/
def envFail : Env := { env0 with indexCall := fun _ _ _ _ => false }

/-- A run whose search returns one hit on page 1 of document 1, a document
of one page image `42`, and whose decoder returns the string `answer`. -/
def envHit : Env :=
  { env0 with
    search := fun _ _ => [⟨1, 1, 0⟩]
    getDocumentPath := fun d => if d = 1 then some "a.pdf" else none
    convertFromPath := fun _ => [42]
    batchDecode := fun _ _ _ => ["answer"] }

/-- A run whose search returns one hit on page 5 of document 1, although
document 1 has a single page: the page is out of range and gets skipped. -/
def envSkip : Env :=
  { env0 with
    search := fun _ _ => [⟨1, 5, 0⟩]
    getDocumentPath := fun d => if d = 1 then some "a.pdf" else none
    convertFromPath := fun _ => [42] }

section Lemmas

/-- `copyFiles` never changes the existence flag of the staging folder. -/
theorem copyFiles_stagingExists (l : List String) (fs : FSState) :
    (copyFiles fs l).1.stagingExists = fs.stagingExists := by
  induction l generalizing fs with
  | nil => rfl
  | cons p rest ih =>
    by_cases hp : p ∈ fs.files
    · simp only [copyFiles, if_pos hp]
      exact ih _
    · simp only [copyFiles, if_neg hp]

/-- When every listed file exists, `copyFiles` copies them all in order and
raises nothing. -/
theorem copyFiles_all_exist (l : List String) (fs : FSState)
    (h : ∀ q ∈ l, q ∈ fs.files) :
    copyFiles fs l = ({ fs with staging := fs.staging ++ l.map basename }, none) := by
  induction l generalizing fs with
  | nil => simp [copyFiles]
  | cons p rest ih =>
    have hp : p ∈ fs.files := h p (List.mem_cons_self p rest)
    have hrest : ∀ q ∈ rest, q ∈ fs.files := fun q hq => h q (List.mem_cons_of_mem p hq)
    simp only [copyFiles, if_pos hp]
    rw [ih { fs with staging := fs.staging ++ [basename p] } hrest]
    simp

/-- When every file of a front segment exists and the next file does not,
`copyFiles` copies exactly the front segment and then raises
`FileNotFoundError` for the missing file. -/
theorem copyFiles_first_missing (l1 l2 : List String) (p : String) (fs : FSState)
    (h1 : ∀ q ∈ l1, q ∈ fs.files) (hp : p ∉ fs.files) :
    copyFiles fs (l1 ++ p :: l2) =
      ({ fs with staging := fs.staging ++ l1.map basename },
        some (RagError.fileNotFound p)) := by
  induction l1 generalizing fs with
  | nil =>
    simp only [List.nil_append, copyFiles, if_neg hp, List.map_nil, List.append_nil]
  | cons q rest ih =>
    have hq : q ∈ fs.files := h1 q (List.mem_cons_self q rest)
    have hrest : ∀ x ∈ rest, x ∈ fs.files := fun x hx => h1 x (List.mem_cons_of_mem q hx)
    simp only [List.cons_append, copyFiles, if_pos hq]
    refine (ih { fs with staging := fs.staging ++ [basename q] } hrest hp).trans ?_
    simp

/-- The only error `copyFiles` raises is `FileNotFoundError`. -/
theorem copyFiles_err_shape (l : List String) (fs : FSState) (e : RagError)
    (h : (copyFiles fs l).2 = some e) : ∃ p, e = RagError.fileNotFound p := by
  induction l generalizing fs with
  | nil => simp [copyFiles] at h
  | cons p rest ih =>
    by_cases hp : p ∈ fs.files
    · simp only [copyFiles, if_pos hp] at h
      exact ih _ h
    · simp only [copyFiles, if_neg hp, Option.some.injEq] at h
      exact ⟨p, h.symm⟩

/-- The only errors the index-name derivation raises are the Python
`TypeError` and `IndexError` slips. -/
theorem deriveIndexName_err_shape (fp : Option String) (fps : Option (List String))
    (iname : Option String) (e : RagError)
    (h : deriveIndexName fp fps iname = .error e) :
    e = RagError.typeError ∨ e = RagError.indexError := by
  unfold deriveIndexName at h
  cases iname with
  | some n => exact absurd h (by simp)
  | none =>
    by_cases ht : truthyStr fp = true
    · rw [if_pos ht] at h
      exact absurd h (by simp)
    · rw [if_neg ht] at h
      cases fps with
      | none =>
        injection h with h2
        exact Or.inl h2.symm
      | some l =>
        cases l with
        | nil =>
          injection h with h2
          exact Or.inr h2.symm
        | cons f rest => exact absurd h (by simp)

/-- The `st` component of the file-list branch is the state it was given. -/
theorem indexFilesBranch_st (env : Env) (fs : FSState) (st : RagState)
    (fps : Option (List String)) (n : String) (ow : Bool) :
    (indexFilesBranch env fs st fps n ow).st = st := by
  unfold indexFilesBranch
  cases fps with
  | none => rfl
  | some paths =>
    rcases hc : copyFiles { fs with stagingExists := true } paths with ⟨fs2, e⟩
    cases e with
    | none =>
      simp only [hc]
      by_cases hi : env.indexCall (osJoin st.indexPath "temp_index") n true ow <;> simp [hi]
    | some e => simp [hc]

/-- Looking up a freshly inserted key returns the inserted value. -/
theorem lookup_insert (c : List (Int × List Nat)) (d : Int) (v : List Nat) :
    lookupCache (insertCache c d v) d = some v := by
  induction c with
  | nil => simp [insertCache, lookupCache]
  | cons kv rest ih =>
    rcases kv with ⟨k, w⟩
    by_cases hk : k = d
    · simp [insertCache, lookupCache, hk]
    · simp only [insertCache, if_neg hk, lookupCache]
      exact ih

/-- `_get_document_images` never calls the generator. -/
theorem getDocumentImages_generateCalls (env : Env) (cache : List (Int × List Nat))
    (tr : Trace) (d : Int) :
    (getDocumentImages env cache tr d).tr.generateCalls = tr.generateCalls := by
  unfold getDocumentImages
  cases hl : lookupCache cache d with
  | some imgs => rfl
  | none =>
    cases hg : env.getDocumentPath d with
    | none => rfl
    | some p => rfl

/-- The retrieval loop never calls the generator. -/
theorem resolveLoop_generateCalls (env : Env) (rs : List SearchResult)
    (cache : List (Int × List Nat)) (tr : Trace) (acc : List Nat) :
    (resolveLoop env cache tr acc rs).tr.generateCalls = tr.generateCalls := by
  induction rs generalizing cache tr acc with
  | nil => rfl
  | cons r rest ih =>
    unfold resolveLoop
    rcases hg : getDocumentImages env cache tr r.doc_id with ⟨res, cache1, tr1⟩
    have htr : tr1.generateCalls = tr.generateCalls := by
      have := getDocumentImages_generateCalls env cache tr r.doc_id
      rw [hg] at this
      exact this
    cases res with
    | error e => exact htr
    | ok docImgs =>
      by_cases hin : 0 ≤ r.page_num - 1 ∧ r.page_num - 1 < (docImgs.length : Int)
      · simp only [if_pos hin]
        rw [ih]
        exact htr
      · simp only [if_neg hin]
        rw [ih]
        exact htr

/-- The only error `_get_document_images` raises is the unknown-document
one. -/
theorem getDocumentImages_err_shape (env : Env) (cache : List (Int × List Nat))
    (tr : Trace) (d : Int) (e : RagError)
    (h : (getDocumentImages env cache tr d).res = .error e) :
    ∃ i, e = RagError.documentNotFound i := by
  unfold getDocumentImages at h
  cases hl : lookupCache cache d with
  | some imgs => rw [hl] at h; exact absurd h (by simp)
  | none =>
    rw [hl] at h
    cases hg : env.getDocumentPath d with
    | none =>
      rw [hg] at h
      injection h with h2
      exact ⟨d, h2.symm⟩
    | some p => rw [hg] at h; exact absurd h (by simp)

/-- The only error the retrieval loop raises is the unknown-document one. -/
theorem resolveLoop_err_shape (env : Env) (rs : List SearchResult)
    (cache : List (Int × List Nat)) (tr : Trace) (acc : List Nat) (e : RagError)
    (h : (resolveLoop env cache tr acc rs).res = .error e) :
    ∃ i, e = RagError.documentNotFound i := by
  induction rs generalizing cache tr acc with
  | nil => exact absurd h (by simp [resolveLoop])
  | cons r rest ih =>
    unfold resolveLoop at h
    rcases hg : getDocumentImages env cache tr r.doc_id with ⟨res, cache1, tr1⟩
    rw [hg] at h
    cases res with
    | error e2 =>
      dsimp only at h
      simp only [Except.error.injEq] at h
      have hshape := getDocumentImages_err_shape env cache tr r.doc_id e2 (by rw [hg])
      exact h ▸ hshape
    | ok docImgs =>
      dsimp only at h
      by_cases hin : 0 ≤ r.page_num - 1 ∧ r.page_num - 1 < (docImgs.length : Int)
      · rw [if_pos hin] at h
        exact ih _ _ _ h
      · rw [if_neg hin] at h
        exact ih _ _ _ h

/-- With an active index, `answer_question` never raises the not-indexed
error. -/
theorem answer_question_ne_notIndexed (env : Env) (st : RagState) (q : String)
    (k m : Nat) (n : String) (hix : st.indexName = some n) :
    (answer_question env st q k m).res ≠ .error RagError.notIndexed := by
  unfold answer_question
  rw [hix]
  by_cases hres : env.search q k = []
  · simp [hres]
  · rw [if_neg hres]
    rcases hr : (resolveLoop env st.docImages emptyTrace [] (env.search q k)).res with e | retrieved
    · simp only [hr]
      intro hcontra
      injection hcontra with h2
      obtain ⟨i, hi⟩ := resolveLoop_err_shape env (env.search q k) st.docImages emptyTrace [] e hr
      rw [hi] at h2
      exact RagError.noConfusion h2
    · simp only [hr]
      by_cases hret : retrieved = []
      · simp [hret]
      · rw [if_neg hret]
        cases houts : env.batchDecode
            (trimGenerated (buildInputs env (buildChat retrieved q))
              (env.generate (buildInputs env (buildChat retrieved q)) m false)) true false with
        | nil => simp [houts]
        | cons o os => simp [houts]

/-- With a file list and an explicit index name, `index_documents` reduces
to the file-list branch run with the index name recorded in the state. -/
theorem index_documents_files_named (env : Env) (fs : FSState) (st : RagState)
    (l : List String) (n : String) (ow : Bool) :
    index_documents env fs st none (some l) (some n) ow =
      indexFilesBranch env fs { st with indexName := some n } (some l) n ow := rfl

/-- When the name derivation succeeds and the source guard passes, the state
returned by `index_documents` is the input state with the derived name
recorded — whatever happens afterwards. -/
theorem index_documents_st_on_ok (env : Env) (fs : FSState) (st : RagState)
    (fp : Option String) (fps : Option (List String)) (iname : Option String)
    (ow : Bool) (name : String)
    (hg : ¬(fp = none ∧ fps = none))
    (hd : deriveIndexName fp fps iname = .ok name) :
    (index_documents env fs st fp fps iname ow).st = { st with indexName := some name } := by
  unfold index_documents
  rw [if_neg hg, hd]
  dsimp only
  by_cases ht : truthyStr fp = true
  · rw [if_pos ht]
    by_cases hic : env.indexCall (fp.getD "") name true ow = true
    · rw [if_pos hic]
    · rw [if_neg hic]
  · rw [if_neg ht]
    exact indexFilesBranch_st env fs _ fps name ow

/-- When the name derivation raises, `index_documents` propagates exactly
that error. -/
theorem index_documents_err_on_derive_error (env : Env) (fs : FSState) (st : RagState)
    (fp : Option String) (fps : Option (List String)) (iname : Option String)
    (ow : Bool) (e : RagError)
    (hg : ¬(fp = none ∧ fps = none))
    (hd : deriveIndexName fp fps iname = .error e) :
    (index_documents env fs st fp fps iname ow).err = some e := by
  unfold index_documents
  rw [if_neg hg, hd]

/-- With a truthy folder path and no explicit name, the derivation yields
the basename of the normalized folder path. -/
theorem deriveIndexName_folder (fp : String) (fps : Option (List String))
    (hfp : fp ≠ "") :
    deriveIndexName (some fp) fps none = .ok (basename (normpath fp)) := by
  have ht : truthyStr (some fp) = true := by
    simp [truthyStr, hfp]
  unfold deriveIndexName
  rw [if_pos ht]
  rfl

end Lemmas

section Claims

/-- Claim C1, counterexample: with an existing file `a.pdf` and an indexer
call that raises, `index_documents` propagates the failure and leaves the
staging directory in place, with the copied file still inside — refuting
that the staging directory is removed on the error exit. -/
theorem C1_counterexample :
    (index_documents envFail fs0 st0 none (some ["a.pdf"]) (some "idx") false).err
        = some RagError.collaboratorFailure ∧
    (index_documents envFail fs0 st0 none (some ["a.pdf"]) (some "idx") false).fs.stagingExists
        = true ∧
    (index_documents envFail fs0 st0 none (some ["a.pdf"]) (some "idx") false).fs.staging
        = ["a.pdf"] := by
  exact ⟨rfl, rfl, rfl⟩

/-- Claim C1 (amended): for a file-list invocation whose index-name
derivation succeeds (always the case for a non-empty list),
`index_documents` removes the staging directory (and its copied files) when
the call completes without error; on any error exit — a missing listed file
or an indexer failure — the staging directory is left in place. -/
theorem C1_staging_cleanup (env : Env) (fs : FSState) (st : RagState)
    (l : List String) (iname : Option String) (name : String) (ow : Bool)
    (hd : deriveIndexName none (some l) iname = .ok name) :
    ((index_documents env fs st none (some l) iname ow).err = none →
      (index_documents env fs st none (some l) iname ow).fs.staging = [] ∧
      (index_documents env fs st none (some l) iname ow).fs.stagingExists = false) ∧
    ((index_documents env fs st none (some l) iname ow).err ≠ none →
      (index_documents env fs st none (some l) iname ow).fs.stagingExists = true) := by
  unfold index_documents
  rw [if_neg (by simp), hd]
  dsimp only
  rw [if_neg (by simp [truthyStr])]
  unfold indexFilesBranch
  dsimp only
  rcases hc : copyFiles { fs with stagingExists := true } l with ⟨fs2, e⟩
  have hex : fs2.stagingExists = true := by
    have := copyFiles_stagingExists l { fs with stagingExists := true }
    rw [hc] at this
    exact this
  cases e with
  | some e2 =>
    dsimp only
    refine ⟨?_, fun _ => hex⟩
    intro hcontra
    exact absurd hcontra (by simp)
  | none =>
    dsimp only
    by_cases hic : env.indexCall (osJoin st.indexPath "temp_index") name true ow = true
    · rw [if_pos hic]
      exact ⟨fun _ => ⟨rfl, rfl⟩, fun hcontra => absurd rfl hcontra⟩
    · rw [if_neg hic]
      refine ⟨?_, fun _ => hex⟩
      intro hcontra
      exact absurd hcontra (by simp)

/-- Claim C1, witness: on a concrete successful run the staging directory
is gone afterwards. -/
theorem C1_staging_cleanup_witness :
    (index_documents env0 fs0 st0 none (some ["a.pdf"]) (some "idx") false).err = none ∧
    (index_documents env0 fs0 st0 none (some ["a.pdf"]) (some "idx") false).fs.staging = [] ∧
    (index_documents env0 fs0 st0 none (some ["a.pdf"]) (some "idx") false).fs.stagingExists
        = false :=
  ⟨rfl, (C1_staging_cleanup env0 fs0 st0 ["a.pdf"] (some "idx") "idx" false rfl).1 rfl⟩

/-- Claim C2, counterexample: with both `folder_path` and `file_paths`
provided, `index_documents` does not fail at all — refuting that providing
both sources raises `InvalidArgument`. -/
theorem C2_counterexample :
    (index_documents env0 fs0 st0 (some "docs") (some ["a.pdf"]) (some "idx") false).err
        = none := by
  exact rfl

/-- Claim C2 (amended): `index_documents` fails with `InvalidArgument`
exactly when both `folder_path` and `file_paths` are null; when both are
provided (with a non-empty folder string) it proceeds, invoking the indexer
on the folder path. -/
theorem C2_invalid_argument (env : Env) (fs : FSState) (st : RagState)
    (fp : Option String) (fps : Option (List String)) (iname : Option String) (ow : Bool) :
    ((index_documents env fs st fp fps iname ow).err = some RagError.invalidArgument
      ↔ fp = none ∧ fps = none) ∧
    (∀ s, fp = some s → s ≠ "" →
      (index_documents env fs st fp fps iname ow).calls.map (fun c => c.1) = [s]) := by
  constructor
  · constructor
    · intro herr
      by_cases hg : fp = none ∧ fps = none
      · exact hg
      · exfalso
        unfold index_documents at herr
        rw [if_neg hg] at herr
        rcases hd : deriveIndexName fp fps iname with e2 | name
        · rw [hd] at herr
          dsimp only at herr
          injection herr with h2
          rcases deriveIndexName_err_shape fp fps iname e2 hd with h3 | h3 <;>
            rw [h3] at h2 <;> exact RagError.noConfusion h2
        · rw [hd] at herr
          dsimp only at herr
          by_cases ht : truthyStr fp = true
          · rw [if_pos ht] at herr
            by_cases hic : env.indexCall (fp.getD "") name true ow = true
            · rw [if_pos hic] at herr
              exact Option.noConfusion herr
            · rw [if_neg hic] at herr
              injection herr with h2
              exact RagError.noConfusion h2
          · rw [if_neg ht] at herr
            unfold indexFilesBranch at herr
            dsimp only at herr
            cases fps with
            | none =>
              dsimp only at herr
              injection herr with h2
              exact RagError.noConfusion h2
            | some paths =>
              dsimp only at herr
              rcases hc : copyFiles { fs with stagingExists := true } paths with ⟨fs2, e⟩
              rw [hc] at herr
              cases e with
              | some e2 =>
                dsimp only at herr
                injection herr with h2
                obtain ⟨p, hp⟩ := copyFiles_err_shape paths _ e2 (by rw [hc])
                rw [hp] at h2
                exact RagError.noConfusion h2
              | none =>
                dsimp only at herr
                by_cases hic : env.indexCall (osJoin st.indexPath "temp_index") name true ow = true
                · rw [if_pos hic] at herr
                  exact Option.noConfusion herr
                · rw [if_neg hic] at herr
                  injection herr with h2
                  exact RagError.noConfusion h2
    · rintro ⟨rfl, rfl⟩
      rfl
  · rintro s rfl hs
    have ht : truthyStr (some s) = true := by simp [truthyStr, hs]
    unfold index_documents
    rw [if_neg (by simp)]
    rcases hd : deriveIndexName (some s) fps iname with e2 | name
    · exfalso
      unfold deriveIndexName at hd
      cases iname with
      | some n => exact Except.noConfusion hd
      | none =>
        rw [if_pos ht] at hd
        exact Except.noConfusion hd
    · dsimp only
      rw [if_pos ht]
      by_cases hic : env.indexCall ((some s).getD "") name true ow = true
      · rw [if_pos hic]
        rfl
      · rw [if_neg hic]
        rfl

/-- Claim C2, witness: with both sources provided, the indexer is invoked
once, on the folder path. -/
theorem C2_invalid_argument_witness :
    (index_documents env0 fs0 st0 (some "docs") (some ["a.pdf"]) (some "idx") false).calls.map
        (fun c => c.1) = ["docs"] :=
  (C2_invalid_argument env0 fs0 st0 (some "docs") (some ["a.pdf"]) (some "idx") false).2
    "docs" rfl (by decide)

/-- Claim C3, counterexample: indexing `["a.pdf", "missing.pdf"]` where only
`a.pdf` exists fails with `FileNotFound` naming `missing.pdf`, yet `a.pdf`
has already been copied into the staging directory — refuting the atomic
whole-list precheck. -/
theorem C3_counterexample :
    (index_documents env0 fs0 st0 none (some ["a.pdf", "missing.pdf"]) (some "idx") false).err
        = some (RagError.fileNotFound "missing.pdf") ∧
    (index_documents env0 fs0 st0 none (some ["a.pdf", "missing.pdf"]) (some "idx") false).fs.staging
        = ["a.pdf"] := by
  exact ⟨rfl, rfl⟩

/-- Claim C3 (amended): when the listed files up to some position exist and
the next one does not, `index_documents` fails with `FileNotFound` naming
that first missing path before the indexer is ever invoked — but the
existence check is interleaved with copying, so every earlier listed file
has already been copied into the staging directory. -/
theorem C3_first_missing (env : Env) (fs : FSState) (st : RagState)
    (l1 l2 : List String) (p : String) (iname : Option String) (name : String) (ow : Bool)
    (hd : deriveIndexName none (some (l1 ++ p :: l2)) iname = .ok name)
    (h1 : ∀ q ∈ l1, q ∈ fs.files) (hp : p ∉ fs.files) :
    (index_documents env fs st none (some (l1 ++ p :: l2)) iname ow).err
        = some (RagError.fileNotFound p) ∧
    (index_documents env fs st none (some (l1 ++ p :: l2)) iname ow).fs.staging
        = fs.staging ++ l1.map basename ∧
    (index_documents env fs st none (some (l1 ++ p :: l2)) iname ow).calls = [] := by
  unfold index_documents
  rw [if_neg (by simp), hd]
  dsimp only
  rw [if_neg (by simp [truthyStr])]
  unfold indexFilesBranch
  dsimp only
  rw [copyFiles_first_missing l1 l2 p { fs with stagingExists := true } h1 hp]
  exact ⟨rfl, rfl, rfl⟩

/-- Claim C3, witness: the amended statement evaluated on the concrete
two-file scenario from the spec. -/
theorem C3_first_missing_witness :
    (index_documents env0 fs0 st0 none (some ["a.pdf", "missing.pdf"]) (some "idx") false).err
        = some (RagError.fileNotFound "missing.pdf") ∧
    (index_documents env0 fs0 st0 none (some ["a.pdf", "missing.pdf"]) (some "idx") false).calls
        = [] := by
  have h := C3_first_missing env0 fs0 st0 ["a.pdf"] [] "missing.pdf" (some "idx") "idx" false
    rfl (by decide) (by decide)
  exact ⟨h.1, h.2.2⟩

/-- Claim C4: a cache hit returns the stored sequence unchanged without
rasterizing; a miss with no retriever record raises `DocumentNotFound`; a
miss with a known path rasterizes all pages once, stores the complete
sequence under the id and returns it; and after any successful lookup a
second lookup for the same id returns the identical sequence without
touching the cache, the trace or the rasterizer again. -/
theorem C4_document_cache (env : Env) (cache : List (Int × List Nat)) (tr : Trace) (d : Int) :
    (∀ imgs, lookupCache cache d = some imgs →
      getDocumentImages env cache tr d = ⟨.ok imgs, cache, tr⟩) ∧
    (lookupCache cache d = none → env.getDocumentPath d = none →
      getDocumentImages env cache tr d = ⟨.error (RagError.documentNotFound d), cache, tr⟩) ∧
    (∀ p, lookupCache cache d = none → env.getDocumentPath d = some p →
      (getDocumentImages env cache tr d).res = .ok (env.convertFromPath p) ∧
      lookupCache (getDocumentImages env cache tr d).cache d = some (env.convertFromPath p) ∧
      (getDocumentImages env cache tr d).tr.rasterCalls = tr.rasterCalls ++ [p]) ∧
    (∀ imgs c1 t1, getDocumentImages env cache tr d = ⟨.ok imgs, c1, t1⟩ →
      getDocumentImages env c1 t1 d = ⟨.ok imgs, c1, t1⟩) := by
  refine ⟨?_, ?_, ?_, ?_⟩
  · intro imgs hl
    unfold getDocumentImages
    rw [hl]
  · intro hl hg
    unfold getDocumentImages
    rw [hl, hg]
  · intro p hl hg
    unfold getDocumentImages
    rw [hl, hg]
    exact ⟨rfl, lookup_insert cache d _, rfl⟩
  · intro imgs c1 t1 h
    unfold getDocumentImages at h ⊢
    cases hl : lookupCache cache d with
    | some imgs2 =>
      rw [hl] at h
      injection h with h1 h2 h3
      injection h1 with h1
      subst h1
      subst h2
      subst h3
      rw [hl]
    | none =>
      rw [hl] at h
      cases hg : env.getDocumentPath d with
      | none =>
        rw [hg] at h
        injection h with h1 _ _
        exact Except.noConfusion h1
      | some p =>
        rw [hg] at h
        injection h with h1 h2 h3
        injection h1 with h1
        subst h2
        subst h3
        rw [lookup_insert cache d (env.convertFromPath p), h1]

/-- Claim C4, witness: the hit and miss conjuncts evaluated in a run with
one cached document and a second known but uncached document. -/
theorem C4_document_cache_witness :
    getDocumentImages envHit [(1, [10, 20])] emptyTrace 1
        = ⟨.ok [10, 20], [(1, [10, 20])], emptyTrace⟩ ∧
    (getDocumentImages envHit [] emptyTrace 1).res = .ok [42] ∧
    lookupCache (getDocumentImages envHit [] emptyTrace 1).cache 1 = some [42] ∧
    (getDocumentImages envHit [] emptyTrace 1).tr.rasterCalls = ["a.pdf"] := by
  refine ⟨(C4_document_cache envHit [(1, [10, 20])] emptyTrace 1).1 [10, 20] rfl, ?_⟩
  have h := (C4_document_cache envHit [] emptyTrace 1).2.2.1 "a.pdf" rfl rfl
  exact ⟨h.1, h.2.1, h.2.2⟩

/-- Claim C5, counterexample: with first file `a.b.pdf` and no explicit
index name, the derived name is `a` — the name is truncated at the first
dot, not merely stripped of its extension, refuting the claimed `a.b`. -/
theorem C5_counterexample :
    (index_documents env0 ⟨["a.b.pdf"], [], false⟩ st0 none (some ["a.b.pdf"]) none false).st.indexName
        = some "a" ∧
    (index_documents env0 ⟨["a.b.pdf"], [], false⟩ st0 none (some ["a.b.pdf"]) none false).st.indexName
        ≠ some "a.b" := by
  exact ⟨rfl, by decide⟩

/-- Claim C5 (amended): when `index_name` is omitted it is derived as the
basename of the normalized folder path (when `folder_path` is given and
non-empty), or as the first file's basename truncated at its first dot
(when `file_paths` is given) — so for a first file named `a.b.pdf` the
derived name is `a`. -/
theorem C5_derived_index_name :
    (∀ (env : Env) (fs : FSState) (st : RagState) (f : String) (rest : List String) (ow : Bool),
      (index_documents env fs st none (some (f :: rest)) none ow).st.indexName
        = some (String.mk ((splitChars '.' (basename f).toList).headD []))) ∧
    (∀ (env : Env) (fs : FSState) (st : RagState) (fp : String) (fps : Option (List String))
        (ow : Bool), fp ≠ "" →
      (index_documents env fs st (some fp) fps none ow).st.indexName
        = some (basename (normpath fp))) := by
  constructor
  · intro env fs st f rest ow
    rw [index_documents_st_on_ok env fs st none (some (f :: rest)) none ow
      (String.mk ((splitChars '.' (basename f).toList).headD [])) (by simp) rfl]
  · intro env fs st fp fps ow hfp
    rw [index_documents_st_on_ok env fs st (some fp) fps none ow
      (basename (normpath fp)) (by simp) (deriveIndexName_folder fp fps hfp)]

/-- Claim C5, witness: both derivation rules evaluated on concrete inputs:
folder `docs/papers/` derives `papers`, first file `a.b.pdf` derives `a`. -/
theorem C5_derived_index_name_witness :
    (index_documents env0 fs0 st0 (some "docs/papers/") none none false).st.indexName
        = some "papers" ∧
    (index_documents env0 ⟨["a.b.pdf"], [], false⟩ st0 none (some ["a.b.pdf"]) none false).st.indexName
        = some "a" :=
  ⟨(C5_derived_index_name.2 env0 fs0 st0 "docs/papers/" none false (by decide)).trans rfl,
    (C5_derived_index_name.1 env0 ⟨["a.b.pdf"], [], false⟩ st0 "a.b.pdf" [] false).trans rfl⟩

/-- Claim C6: when the retriever returns no results, `answer_question`
returns the fixed no-relevant-documents sentinel and never invokes the
generator. -/
theorem C6_empty_results (env : Env) (st : RagState) (q : String) (k m : Nat) (n : String)
    (hix : st.indexName = some n) (hs : env.search q k = []) :
    (answer_question env st q k m).res
      = .ok "No relevant documents found. Please try a different question or index some documents first." ∧
    (answer_question env st q k m).tr.generateCalls = [] := by
  unfold answer_question
  rw [hix]
  dsimp only
  rw [hs]
  exact ⟨rfl, rfl⟩

/-- Claim C6, witness: a concrete indexed state whose search yields no
results returns the sentinel with an empty generator trace. -/
theorem C6_empty_results_witness :
    (answer_question env0 ⟨"./index", [], some "idx"⟩ "q" 3 500).res
      = .ok "No relevant documents found. Please try a different question or index some documents first." ∧
    (answer_question env0 ⟨"./index", [], some "idx"⟩ "q" 3 500).tr.generateCalls = [] :=
  C6_empty_results env0 ⟨"./index", [], some "idx"⟩ "q" 3 500 "idx" rfl rfl

/-- Claim C7: a search result whose 1-based page number falls outside the
cached page range of its document is skipped with a warning and contributes
no image; and when after filtering no image was resolved, `answer_question`
returns the failed-to-retrieve sentinel without invoking the generator. -/
theorem C7_out_of_range (env : Env) :
    (∀ (cache : List (Int × List Nat)) (tr : Trace) (acc : List Nat) (r : SearchResult)
        (rest : List SearchResult) (imgs : List Nat) (c1 : List (Int × List Nat)) (t1 : Trace),
      getDocumentImages env cache tr r.doc_id = ⟨.ok imgs, c1, t1⟩ →
      ¬(0 ≤ r.page_num - 1 ∧ r.page_num - 1 < (imgs.length : Int)) →
      resolveLoop env cache tr acc (r :: rest) =
        resolveLoop env c1
          { t1 with warnings := t1.warnings ++
              ["Warning: Page " ++ toString r.page_num ++ " not found in document "
                ++ toString r.doc_id] }
          acc rest) ∧
    (∀ (st : RagState) (q : String) (k m : Nat) (n : String),
      st.indexName = some n → env.search q k ≠ [] →
      (resolveLoop env st.docImages emptyTrace [] (env.search q k)).res = .ok [] →
      (answer_question env st q k m).res
          = .ok "Failed to retrieve document images. Please check your document index." ∧
      (answer_question env st q k m).tr.generateCalls = []) := by
  constructor
  · intro cache tr acc r rest imgs c1 t1 hg hout
    conv_lhs => rw [resolveLoop]
    rw [hg]
    dsimp only
    rw [if_neg hout]
  · intro st q k m n hix hne hres
    unfold answer_question
    rw [hix]
    dsimp only
    rw [if_neg hne]
    have hgen := resolveLoop_generateCalls env (env.search q k) st.docImages emptyTrace []
    rcases hr : resolveLoop env st.docImages emptyTrace [] (env.search q k) with ⟨res, c, t⟩
    rw [hr] at hres hgen
    dsimp only at hres hgen
    subst hres
    exact ⟨rfl, hgen⟩

/-- Claim C7, witness: a concrete run whose single search hit names page 5
of a one-page document returns the failed-to-retrieve sentinel without any
generator call. -/
theorem C7_out_of_range_witness :
    (answer_question envSkip ⟨"./index", [], some "idx"⟩ "q" 3 500).res
        = .ok "Failed to retrieve document images. Please check your document index." ∧
    (answer_question envSkip ⟨"./index", [], some "idx"⟩ "q" 3 500).tr.generateCalls = [] :=
  (C7_out_of_range envSkip).2 ⟨"./index", [], some "idx"⟩ "q" 3 500 "idx" rfl
    (by decide) rfl

/-- Claim C8: when at least one image was resolved, `answer_question` makes
exactly one generator call, whose inputs come from the chat request holding
all resolved images in retrieval rank order followed by the question, with
`max_tokens` as the cap on new tokens and sampling disabled; the returned
value is the first decoded string of the generated sequences with their
input prefixes dropped and special tokens skipped. -/
theorem C8_generation (env : Env) (st : RagState) (q : String) (k m : Nat) (n : String)
    (imgs : List Nat) (c : List (Int × List Nat)) (t : Trace)
    (hix : st.indexName = some n) (hne : env.search q k ≠ [])
    (hr : resolveLoop env st.docImages emptyTrace [] (env.search q k) = ⟨.ok imgs, c, t⟩)
    (himgs : imgs ≠ []) :
    (answer_question env st q k m).tr.generateCalls
        = [(buildInputs env (buildChat imgs q), m, false)] ∧
    (answer_question env st q k m).res =
      (match env.batchDecode
          (trimGenerated (buildInputs env (buildChat imgs q))
            (env.generate (buildInputs env (buildChat imgs q)) m false)) true false with
        | [] => Except.error RagError.indexError
        | o :: _ => Except.ok o) := by
  unfold answer_question
  rw [hix]
  dsimp only
  rw [if_neg hne]
  have hgen := resolveLoop_generateCalls env (env.search q k) st.docImages emptyTrace []
  rw [hr] at hgen
  dsimp only at hgen
  have hgen2 : t.generateCalls = [] := by rw [hgen]; rfl
  rw [hr]
  dsimp only
  rw [if_neg himgs]
  cases houts : env.batchDecode
      (trimGenerated (buildInputs env (buildChat imgs q))
        (env.generate (buildInputs env (buildChat imgs q)) m false)) true false with
  | nil =>
    dsimp only
    exact ⟨by rw [hgen2]; rfl, rfl⟩
  | cons o os =>
    dsimp only
    exact ⟨by rw [hgen2]; rfl, rfl⟩

/-- Claim C8, witness: the generation path evaluated in a concrete run with
one resolved image, returning the decoded string `answer`. -/
theorem C8_generation_witness :
    (answer_question envHit ⟨"./index", [], some "idx"⟩ "q" 3 500).tr.generateCalls
        = [(buildInputs envHit (buildChat [42] "q"), 500, false)] ∧
    (answer_question envHit ⟨"./index", [], some "idx"⟩ "q" 3 500).res = .ok "answer" := by
  have h := C8_generation envHit ⟨"./index", [], some "idx"⟩ "q" 3 500 "idx" [42]
    [(1, [42])] ⟨["a.pdf"], [], []⟩ rfl (by decide) rfl (by decide)
  exact ⟨h.1, h.2.trans rfl⟩

/-- Claim C9: when `index_documents` fails with `FileNotFound` on a listed
file or with an indexer failure, the active index name has already been
recorded and is not rolled back, so a subsequent `answer_question` on the
resulting state never raises the not-indexed error. -/
theorem C9_index_name_not_rolled_back (env env2 : Env) (fs : FSState) (st : RagState)
    (fp : Option String) (fps : Option (List String)) (iname : Option String) (ow : Bool)
    (e : RagError)
    (he : (index_documents env fs st fp fps iname ow).err = some e)
    (hkind : e = RagError.collaboratorFailure ∨ ∃ p, e = RagError.fileNotFound p) :
    (index_documents env fs st fp fps iname ow).st.indexName ≠ none ∧
    (∀ (q : String) (k m : Nat),
      (answer_question env2 (index_documents env fs st fp fps iname ow).st q k m).res
        ≠ .error RagError.notIndexed) := by
  have hname : ∃ nm, (index_documents env fs st fp fps iname ow).st.indexName = some nm := by
    by_cases hg : fp = none ∧ fps = none
    · exfalso
      rcases hg with ⟨rfl, rfl⟩
      have h1 : (index_documents env fs st none none iname ow).err
          = some RagError.invalidArgument := rfl
      rw [h1] at he
      injection he with h2
      rcases hkind with h3 | ⟨p, h3⟩ <;> rw [h3] at h2 <;> exact RagError.noConfusion h2
    · rcases hd : deriveIndexName fp fps iname with e2 | name
      · exfalso
        have h1 := index_documents_err_on_derive_error env fs st fp fps iname ow e2 hg hd
        rw [h1] at he
        injection he with h2
        rcases deriveIndexName_err_shape fp fps iname e2 hd with h3 | h3 <;>
          rcases hkind with h4 | ⟨p, h4⟩ <;> rw [h3, h4] at h2 <;> exact RagError.noConfusion h2
      · rw [index_documents_st_on_ok env fs st fp fps iname ow name hg hd]
        exact ⟨name, rfl⟩
  obtain ⟨nm, hnm⟩ := hname
  refine ⟨by rw [hnm]; exact Option.noConfusion, ?_⟩
  intro q k m
  exact answer_question_ne_notIndexed env2 _ q k m nm hnm

/-- Claim C9, witness: a concrete failing indexing run (indexer raises on
existing file `a.pdf`) leaves the index name set and a subsequent question
on the resulting state does not raise the not-indexed error. -/
theorem C9_index_name_not_rolled_back_witness :
    (index_documents envFail fs0 st0 none (some ["a.pdf"]) (some "idx") false).st.indexName
        ≠ none ∧
    (answer_question env0 (index_documents envFail fs0 st0 none (some ["a.pdf"]) (some "idx") false).st
        "q" 3 500).res ≠ .error RagError.notIndexed := by
  have h := C9_index_name_not_rolled_back envFail env0 fs0 st0 none (some ["a.pdf"])
    (some "idx") false RagError.collaboratorFailure rfl (Or.inl rfl)
  exact ⟨h.1, h.2 "q" 3 500⟩

/-- Claim C10: calling `index_documents` with a null folder and an empty
file list passes the missing-source guard and, with the index name also
omitted, fails with the Python `IndexError` of `file_paths[0]` — not with
`InvalidArgument` or any other error of the documented taxonomy. -/
theorem C10_empty_file_list (env : Env) (fs : FSState) (st : RagState) (ow : Bool) :
    (index_documents env fs st none (some []) none ow).err = some RagError.indexError ∧
    (index_documents env fs st none (some []) none ow).err ≠ some RagError.invalidArgument := by
  refine ⟨rfl, ?_⟩
  intro hcontra
  have h1 : (index_documents env fs st none (some []) none ow).err
      = some RagError.indexError := rfl
  rw [h1] at hcontra
  injection hcontra with h2
  exact RagError.noConfusion h2

end Claims

end ColpaliRag
